import Mathlib

/-!
Shallow embedding of the core scheduling / object-lifecycle subsystem of the
galaxyEngine2D repository (Go), covering:

* `component.Transform2D` (`MemXY`, previous/current position snapshot);
* the object pool, register/unregister request channels and the six-phase
  physical tick `Application.doPhysicalUpdate` (src/core/coreloop.go);
* the render tick `Application.doRender` and its depth sort;
* `Physics2DSystem.Execute` and the task executor;
* the application lifecycle (`NewApplication`, `Start`, `Kill`, `workLoopExit`).

Machine floats (`float32` positions, depth keys) are modelled as `Int`: every
verified property only copies or compares these values, never performs float
arithmetic.  Go maps are modelled as lists with distinct keys; map iteration
order, being unobservable to the verified properties (the only order-sensitive
consumer sorts first), is fixed to list order.  Concurrency is modelled
sequentially: the physical tick runs its six phases in program order, and
request channels hold whatever was queued when the corresponding drain phase
starts.
-/

namespace GalaxyEngine

/-- From src/unnamed/part_000: `NameTransform2D = "Transform2D"`. -/
def NameTransform2D : String := "Transform2D"

/-- From src/unnamed/part_000: `Transform2D` holds current `(X, Y)` and
previous `(prevX, prevY)` positions.  `memCount` is ghost instrumentation (not
a Go field): it counts how many times `MemXY` has written the previous
position, letting us state that the memorize phase is the unique writer and
writes exactly once per tick.  The spinlock field is omitted: locking is a
no-op observable only under the unmodelled multithread configuration. -/
structure Transform2D where
  prevX : Int
  prevY : Int
  X : Int
  Y : Int
  memCount : Nat
deriving DecidableEq

/-- From src/unnamed/part_000: `MemXY` memorizes X, Y position to prevX,
prevY.  The ghost counter records the write. -/
def Transform2D.MemXY (tf : Transform2D) : Transform2D :=
  { tf with prevX := tf.X, prevY := tf.Y, memCount := tf.memCount + 1 }

/-- A component attached to a game object.  The claims only inspect
`Transform2D`; every other component kind is uninterpreted (`other`), carrying just
its capability name.  A `Comp.other` stored under the name "Transform2D"
models a value whose Go type assertion `.(*Transform2D)` would fail. -/
inductive Comp where
  | transform2D (tf : Transform2D)
  | other (nm : String)
deriving DecidableEq

/-- `GetName` of a component, as in src/unnamed/part_000 for `Transform2D`. -/
def Comp.GetName : Comp → String
  | .transform2D _ => NameTransform2D
  | .other nm => nm

/-- The sprite data the core touches: the depth key `Z` (sorted on by
`doRender`) and a ghost frame counter advanced by `DoFrameStep` (sprite
playback internals are outside this subsystem). -/
structure Sprite where
  Z : Int
  frame : Nat
deriving DecidableEq

/-- `Sprite.DoFrameStep` advances the animation frame; its internals are an
external collaborator, so it is modelled as advancing the ghost counter. -/
def Sprite.DoFrameStep (s : Sprite) : Sprite :=
  { s with frame := s.frame + 1 }

/-- A game object as the core sees it: identity (Go pointer identity, used as
map key), its component set, the user `OnStep` callback, its sprite and the
`IsActive` flag.  `OnStep` is user code outside this subsystem; since
`prevX`/`prevY` are unexported fields of package `component`, user code can
read and write only the current position, so the callback is modelled as an
arbitrary function on the current `(X, Y)` pair of the object's own
transform. -/
structure GameObject2D where
  id : Nat
  components : List Comp
  onStep : Int × Int → Int × Int
  sprite : Sprite
  isActive : Bool

/-- Modelled from the spec: `GameObject2D.GetComponent` — "an ownership set of
components (by capability name, unique per kind)"; the accessor itself lives
in the unprovided `base` package.  Lookup by capability name. -/
def getComponent (comps : List Comp) (nm : String) : Option Comp :=
  comps.find? (fun c => c.GetName == nm)

/-- The Go type assertion `.(*Transform2D)`: succeeds exactly when the looked
up component is a `Transform2D`; a missing component or one of another type
panics at the assertion. -/
def assertTransform2D : Option Comp → Option Transform2D
  | some (.transform2D tf) => some tf
  | _ => none

/-- `GetComponent(NameTransform2D).(*Transform2D)` as one accessor. -/
def GameObject2D.transform2D? (o : GameObject2D) : Option Transform2D :=
  assertTransform2D (getComponent o.components NameTransform2D)

/-- Apply a function to every `Transform2D` component of an object (there is
at most one per the uniqueness invariant); models in-place mutation through
the pointer obtained from `GetComponent`. -/
def GameObject2D.mapTransform (o : GameObject2D) (f : Transform2D → Transform2D) :
    GameObject2D :=
  { o with
    components := o.components.map (fun c =>
      match c with
      | .transform2D tf => .transform2D (f tf)
      | c => c) }

/-- Run a user step callback on a transform: the callback observes and
rewrites the current position only (`prevX`/`prevY` are unexported, and the
ghost counter is untouched since the callback never calls `MemXY`). -/
def applyStep (f : Int × Int → Int × Int) (tf : Transform2D) : Transform2D :=
  { tf with X := (f (tf.X, tf.Y)).1, Y := (f (tf.X, tf.Y)).2 }

/-- One iteration of the phase-3 loop body of `doPhysicalUpdate`
(src/core/coreloop.go lines 203-206): invoke the object's step callback, then
advance its sprite frame. -/
def stepObject (o : GameObject2D) : GameObject2D :=
  let o1 := o.mapTransform (applyStep o.onStep)
  { o1 with sprite := o1.sprite.DoFrameStep }

/-- Modelled from the spec: `ResourceAccessRequest` — "a queued intent to
register or unregister a GameObject, carrying the object and its
target-active flag" (the declaring file is not among the provided sources). -/
structure resourceAccessRequest where
  payload : GameObject2D
  isActive : Bool

/-- A registered update system as the driver loop sees it: its name, priority
(lower executes first) and enabled flag (`SystemBase`); its `Execute` body is
an external collaborator whose only driver-visible effect is being invoked
(recorded in the ghost execution log). -/
structure GSystem where
  name : String
  priority : Int
  enabled : Bool
deriving DecidableEq

/-- Membership of an object id in a pool, modelling Go map-key lookup (map
keys are object pointers; `id` stands for pointer identity). -/
def idMem (pool : List GameObject2D) (i : Nat) : Bool :=
  pool.any (fun o => o.id == i)

/-- Set-insert into a pool bucket: a Go map insert of an already-present key
leaves the map unchanged; label buckets are flattened into one list since the
default label is the only one the provided sources use. -/
def poolInsert (pool : List GameObject2D) (obj : GameObject2D) :
    List GameObject2D :=
  if idMem pool obj.id then pool else pool ++ [obj]

/-- Set-delete from a pool bucket (Go `delete` on a map key). -/
def poolRemove (pool : List GameObject2D) (i : Nat) : List GameObject2D :=
  pool.filter (fun o => o.id != i)

/-- The engine-global state touched by the driver loops: the active and
inactive pools, the two request channels, the input edge-buffer and held set,
and the priority-ordered system list.  `executedLog` and `stepLog` are ghost
instrumentation recording, respectively, every `sys.Execute` invocation and
the ids visited by the step-callback phase. -/
structure EngineState where
  activePool : List GameObject2D
  inactivePool : List GameObject2D
  registerChannel : List resourceAccessRequest
  unregisterChannel : List resourceAccessRequest
  inputPressed : List Nat
  inputHeld : List Nat
  inputReleased : List Nat
  systemPriorityList : List GSystem
  executedLog : List GSystem
  stepLog : List Nat

/-- Modelled from the spec: `RegisterDefault(obj, isActive)` "inserts obj into
the active or inactive bucket under its label" (the pool file is not among the
provided sources); called by phase 1's `addObjDefault`. -/
def addObjDefault (s : EngineState) (obj : GameObject2D) (isActive : Bool) :
    EngineState :=
  if isActive then { s with activePool := poolInsert s.activePool obj }
  else { s with inactivePool := poolInsert s.inactivePool obj }

/-- Modelled from the spec: `UnregisterDefault(obj, wasActive)` "removes obj
from the correct bucket" (the pool file is not among the provided sources);
called by phase 5's `removeObjDefault`. -/
def removeObjDefault (s : EngineState) (obj : GameObject2D) (wasActive : Bool) :
    EngineState :=
  if wasActive then { s with activePool := poolRemove s.activePool obj.id }
  else { s with inactivePool := poolRemove s.inactivePool obj.id }

/-- Phase 1 of `doPhysicalUpdate` (src/core/coreloop.go lines 190-194): drain
every pending register request into the pool.  The Go loop re-tests channel
length, so it consumes exactly what is queued when the phase runs; the model
therefore processes the whole queued list and leaves the channel empty. -/
def phaseDrainRegister (s : EngineState) : EngineState :=
  let s1 := s.registerChannel.foldl
    (fun acc req => addObjDefault acc req.payload req.isActive) s
  { s1 with registerChannel := [] }

/-- Phase 2 of `doPhysicalUpdate` (src/core/coreloop.go lines 195-200): walk
`systemPriorityList`, invoking `Execute` on each enabled system.  The
invocation itself submits work to the executor (modelled separately with
`Physics2DSystem`); the driver-visible effect recorded here is the ghost
log of which systems were executed, in order. -/
def phaseExecuteSystems (s : EngineState) : EngineState :=
  s.systemPriorityList.foldl
    (fun acc sys =>
      if sys.enabled then { acc with executedLog := acc.executedLog ++ [sys] }
      else acc) s

/-- Phase 3 of `doPhysicalUpdate` (src/core/coreloop.go lines 201-207): for
every object in the active pool, invoke its step callback then advance its
sprite frame; the ghost `stepLog` records every visited id. -/
def phaseUserSteps (s : EngineState) : EngineState :=
  { s with
    activePool := s.activePool.map stepObject
    stepLog := s.stepLog ++ s.activePool.map (fun o => o.id) }

/-- Modelled from the spec: `FlushInputBuffer` "transitions pressed/released
event sets back to empty" (the input file is not among the provided sources);
phase 4 of `doPhysicalUpdate` (src/core/coreloop.go lines 208-209). -/
def FlushInputBuffer (s : EngineState) : EngineState :=
  { s with inputPressed := [], inputReleased := [] }

/-- Phase 5 of `doPhysicalUpdate` (src/core/coreloop.go lines 210-214): drain
every pending unregister request, removing each payload from the bucket named
by its current `IsActive` flag. -/
def phaseDrainUnregister (s : EngineState) : EngineState :=
  let s1 := s.unregisterChannel.foldl
    (fun acc req => removeObjDefault acc req.payload req.payload.isActive) s
  { s1 with unregisterChannel := [] }

/-- Phase 6 loop body (src/core/coreloop.go lines 218-219):
`GetComponent(NameTransform2D).(*Transform2D)` followed by `MemXY()`;
`none` models the panic of a failed lookup or type assertion. -/
def memorizeObject (o : GameObject2D) : Option GameObject2D :=
  match o.transform2D? with
  | some _ => some (o.mapTransform Transform2D.MemXY)
  | none => none

/-- Phase 6 iteration over the active pool; the first object lacking a
`Transform2D` aborts the tick (Go panic). -/
def memorizePool : List GameObject2D → Option (List GameObject2D)
  | [] => some []
  | o :: rest =>
    match memorizeObject o with
    | none => none
    | some o2 => (memorizePool rest).map (fun rest2 => o2 :: rest2)

/-- Phase 6 of `doPhysicalUpdate` (src/core/coreloop.go lines 215-221):
memorize every active object's current position into its previous position. -/
def phaseMemorize (s : EngineState) : Option EngineState :=
  (memorizePool s.activePool).map (fun p => { s with activePool := p })

/-- `Application.doPhysicalUpdate` (src/core/coreloop.go lines 189-222),
translated line by line; `none` is a Go panic (phase 6's unchecked type
assertion is the only fallible step). -/
def doPhysicalUpdate (s : EngineState) : Option EngineState :=
  -- 1. check whether there are items to create
  let s1 : EngineState :=
    let d := s.registerChannel.foldl
      (fun acc req => addObjDefault acc req.payload req.isActive) s
    { d with registerChannel := [] }
  -- 2. execute ECS-system
  let s2 : EngineState := s1.systemPriorityList.foldl
    (fun acc sys =>
      if sys.enabled then { acc with executedLog := acc.executedLog ++ [sys] }
      else acc) s1
  -- 3. do user steps
  let s3 : EngineState := { s2 with
    activePool := s2.activePool.map stepObject
    stepLog := s2.stepLog ++ s2.activePool.map (fun o => o.id) }
  -- 4. flush input buffer, only one subLoop can do this
  let s4 : EngineState := { s3 with inputPressed := [], inputReleased := [] }
  -- 5. check whether there are items to unregister
  let s5 : EngineState :=
    let d := s4.unregisterChannel.foldl
      (fun acc req => removeObjDefault acc req.payload req.payload.isActive) s4
    { d with unregisterChannel := [] }
  -- 6. memorize current step
  (memorizePool s5.activePool).map (fun p => { s5 with activePool := p })

/-- The before-comes-first relation of the render depth sort
(src/core/coreloop.go lines 181-183): element `a` precedes `b` when
`a.Sprite.Z > b.Sprite.Z`; as a total preorder for the sort, `b.Z ≤ a.Z`. -/
def zDescBefore (a b : GameObject2D) : Prop :=
  b.sprite.Z ≤ a.sprite.Z

instance : DecidableRel zDescBefore := fun a b =>
  inferInstanceAs (Decidable (b.sprite.Z ≤ a.sprite.Z))

instance : IsTotal GameObject2D zDescBefore :=
  ⟨fun a b => le_total b.sprite.Z a.sprite.Z⟩

instance : IsTrans GameObject2D zDescBefore :=
  ⟨fun _ _ _ hab hbc => le_trans hbc hab⟩

/-- `Application.doRender` (src/core/coreloop.go lines 168-187): snapshot the
active pool into `renderSortList`, sort it by `Sprite.Z` descending, then
invoke each object's render callback in that order.  The returned list is the
render-callback invocation order (`sort.Slice` is modelled by a deterministic
comparison sort over the snapshot order). -/
def doRender (s : EngineState) : List GameObject2D :=
  let renderSortList := s.activePool
  List.insertionSort zDescBefore renderSortList

/-! ### Executor and `Physics2DSystem.Execute` (src/ecs/system/physics2D.go) -/

/-- A unit of work submitted to the executor.  The closure submitted by
`Physics2DSystem.Execute` runs `s.execute(item)`; the observable modelled here
is which object's integration the task performs (`target`), the integration
arithmetic itself being float math outside the verified scope. -/
structure Task where
  target : Nat
deriving DecidableEq

/-- Modelled from the spec: the `Executor` (package `infra/concurrency`, not
among the provided sources) — "owns N worker threads and a task submission
channel"; `runCount` is ghost instrumentation counting `Run()` invocations,
`tasks` the submitted-but-not-completed queue in submission order, and
`completed` the tasks already executed by workers. -/
structure Executor where
  runCount : Nat
  tasks : List Task
  completed : List Task
deriving DecidableEq

/-- Modelled from the spec: `Executor.Run()` "starts N persistent worker
loops"; its driver-visible effect is the ghost invocation count. -/
def Executor.Run (e : Executor) : Executor :=
  { e with runCount := e.runCount + 1 }

/-- Modelled from the spec: `AsyncExecute(task)` "enqueues a task"; it never
runs the task inline, so `completed` is untouched. -/
def Executor.AsyncExecute (e : Executor) (t : Task) : Executor :=
  { e with tasks := e.tasks ++ [t] }

/-- The working set of `Physics2DSystem`: `obj2data` keyed by object id (a Go
map, so keys are distinct); the component bundle values are left uninterpreted here. -/
structure Physics2DSystem where
  obj2data : List Nat
deriving DecidableEq

/-- `Physics2DSystem.Execute` (src/ecs/system/physics2D.go lines 100-107) as
the spec intends it: for each entry of `obj2data`, submit one asynchronous
task integrating that entry's object, then return, never waiting on task
completion. -/
def Physics2DSystem.ExecuteSubmitsEach (sys : Physics2DSystem)
    (e : Executor) : Executor :=
  sys.obj2data.foldl (fun acc objId => acc.AsyncExecute { target := objId }) e

/-- `Physics2DSystem.Execute` as the Go source compiles under the pre-1.22
for-range semantics this repository targets: every submitted closure captures
the single loop variable `item` by reference, so a task that the worker pool
dequeues after `Execute` has returned reads the final element of the
iteration.  This definition gives that realizable schedule (all tasks run
after submission completes). -/
def Physics2DSystem.ExecuteSharedVarPostLoop (sys : Physics2DSystem)
    (e : Executor) : Executor :=
  match sys.obj2data.getLast? with
  | none => e
  | some last =>
    sys.obj2data.foldl (fun acc _ => acc.AsyncExecute { target := last }) e

/-! ### Application lifecycle (src/core/coreloop.go lines 20-161) -/

/-- `gameLoopStats` (src/core/coreloop.go lines 25-29): `created` /
`inited` / `running` stand for `GameLoopStats_Created` /
`GameLoopStats_Initialized` / `GameLoopStats_Running`. -/
inductive gameLoopStats where
  | created
  | inited
  | running
deriving DecidableEq

/-- The `sigKill` channel (`make(chan struct{}, 1)`): a buffered channel of
capacity one with a closed flag; sending on it when closed is a Go panic. -/
structure KillChan where
  closed : Bool
  queued : Nat
deriving DecidableEq

/-- The `Application` fields the verified lifecycle claims touch
(src/core/coreloop.go lines 44-63); timing (tickers), the wait group and the
channels already modelled on `EngineState` are omitted. -/
structure Application where
  status : gameLoopStats
  parallelism : Int
  running : Bool
  executor : Executor
  sigKill : KillChan
deriving DecidableEq

/-- The configuration surface `NewApplication` reads for the verified claims
(src/core/coreloop.go lines 32-40). -/
structure AppConfig where
  parallelism : Int
deriving DecidableEq

/-- `NewApplication` (src/core/coreloop.go lines 67-93).  The process-wide
singleton guard `atomic.CompareAndSwapInt32(&casList[Cas_CoreController],
Cas_False, Cas_True)` is modelled by threading the guard flag explicitly: the
CAS succeeds exactly when the flag was false, and a failed CAS panics
(`Except.error`).  On success the flag is left true and the application is
built with parallelism clamped to at least one. -/
def NewApplication (casCoreController : Bool) (cfg : AppConfig) :
    Except String (Bool × Application) :=
  if casCoreController then
    .error "cannot have two masterGameLoopController in a standalone process"
  else
    let p := if cfg.parallelism < 1 then 1 else cfg.parallelism
    .ok (true,
      { status := .inited
        parallelism := p
        running := false
        executor := { runCount := 0, tasks := [], completed := [] }
        sigKill := { closed := false, queued := 0 } })

/-- The externally visible actions `Start` performs, in program order. -/
inductive StartEvent where
  | initOpenGL
  | initFuncCall
  | executorRun
  | spawnWorkerLoop
  | setRunning
  | renderLoop
deriving DecidableEq

/-- `Application.Start` (src/core/coreloop.go lines 97-119), translated line
by line: panic when already running; otherwise init OpenGL, run the user init
function, call `executor.Run()`, spawn the worker-loop goroutine, mark the
application running, call `executor.Run()` a second time, then enter the
render loop.  External collaborators (OpenGL, init function, the spawned
goroutine, the render loop) appear as events; `Run` invocations also bump the
executor's ghost counter. -/
def Start (app : Application) : Except String (Application × List StartEvent) :=
  if app.status = gameLoopStats.running then
    .error "cannot run a controller twice"
  else
    let e1 := app.executor.Run
    let app1 : Application :=
      { app with running := true, status := .running, executor := e1 }
    let e2 := app1.executor.Run
    .ok ({ app1 with executor := e2 },
      [.initOpenGL, .initFuncCall, .executorRun, .spawnWorkerLoop,
       .setRunning, .executorRun, .renderLoop])

/-- `Application.Kill` (src/core/coreloop.go lines 122-126): send the kill
signal — a Go panic when the channel has been closed — then clear `running`. -/
def Kill (app : Application) : Except String Application :=
  if app.sigKill.closed then .error "send on closed channel"
  else
    .ok { app with
      sigKill := { app.sigKill with queued := app.sigKill.queued + 1 }
      running := false }

/-- `Application.workLoopExit` (src/core/coreloop.go lines 157-161): closes
the `sigKill` channel (and releases the wait group, not modelled). -/
def workLoopExit (app : Application) : Application :=
  { app with sigKill := { app.sigKill with closed := true } }

/-! ### Accounting helpers for the pool-size invariant -/

/-- The ids of a pool, in iteration order. -/
def poolIds (pool : List GameObject2D) : List Nat :=
  pool.map (fun o => o.id)

/-- Pointer identity is unique within a pool (Go map keys are pointers). -/
def NodupIds (pool : List GameObject2D) : Prop :=
  (poolIds pool).Nodup

/-- How many of the queued register requests actually insert a new object
into the active pool when drained in order against `pool`: requests whose
target-active flag is false land in the inactive pool, and requests whose
payload is already a pool member are set-inserts that change nothing. -/
def regActiveAdds (pool : List GameObject2D) :
    List resourceAccessRequest → Nat
  | [] => 0
  | req :: reqs =>
    if req.isActive && !(idMem pool req.payload.id) then
      1 + regActiveAdds (pool ++ [req.payload]) reqs
    else
      regActiveAdds pool reqs

/-- How many objects the queued unregister requests actually remove from the
active pool when drained in order against `pool`: a request whose payload is
not an active member removes nothing (with distinct ids, each hit counts
one). -/
def unregActiveRemovals (pool : List GameObject2D) :
    List resourceAccessRequest → Nat
  | [] => 0
  | req :: reqs =>
    if req.payload.isActive then
      pool.countP (fun o => o.id == req.payload.id) +
        unregActiveRemovals (poolRemove pool req.payload.id) reqs
    else
      unregActiveRemovals pool reqs

/-- The phase-1 fold, named for reasoning. -/
def drainRegFold (s : EngineState) (reqs : List resourceAccessRequest) :
    EngineState :=
  reqs.foldl (fun acc req => addObjDefault acc req.payload req.isActive) s

/-- The phase-5 fold, named for reasoning. -/
def drainUnregFold (s : EngineState) (reqs : List resourceAccessRequest) :
    EngineState :=
  reqs.foldl
    (fun acc req => removeObjDefault acc req.payload req.payload.isActive) s

/-! ### Concrete states used to instantiate the verified properties -/

/-- The engine state at start-up: everything empty. -/
def emptyEngineState : EngineState :=
  { activePool := []
    inactivePool := []
    registerChannel := []
    unregisterChannel := []
    inputPressed := []
    inputHeld := []
    inputReleased := []
    systemPriorityList := []
    executedLog := []
    stepLog := [] }

/-- A freshly built executor. -/
def emptyExecutor : Executor :=
  { runCount := 0, tasks := [], completed := [] }

/-- A game object with one `Transform2D` at position `(5, 7)` and an identity
step callback. -/
def obj1 : GameObject2D :=
  { id := 1
    components := [Comp.transform2D
      { prevX := 0, prevY := 0, X := 5, Y := 7, memCount := 0 }]
    onStep := fun p => p
    sprite := { Z := 0, frame := 0 }
    isActive := true }

/-- A one-object engine state exercising a full physical tick. -/
def w1 : EngineState := { emptyEngineState with activePool := [obj1] }

/-- The state `doPhysicalUpdate` computes from `w1`: the object stepped (a
no-op on position), its frame advanced, and its position memorized. -/
def w1Result : EngineState :=
  { emptyEngineState with
    activePool := [{ id := 1
                     components := [Comp.transform2D
                       { prevX := 5, prevY := 7, X := 5, Y := 7, memCount := 1 }]
                     onStep := fun p => p
                     sprite := { Z := 0, frame := 1 }
                     isActive := true }]
    stepLog := [1] }

/-- An object queued for registration during the `w3` tick. -/
def objR : GameObject2D :=
  { id := 2
    components := [Comp.transform2D
      { prevX := 0, prevY := 0, X := 1, Y := 2, memCount := 0 }]
    onStep := fun p => p
    sprite := { Z := 0, frame := 0 }
    isActive := true }

/-- A tick that drains one register request (active) and one unregister
request (for the preexisting active object). -/
def w3 : EngineState :=
  { emptyEngineState with
    activePool := [obj1]
    registerChannel := [{ payload := objR, isActive := true }]
    unregisterChannel := [{ payload := obj1, isActive := true }] }

/-- The state `doPhysicalUpdate` computes from `w3`: `obj1` stepped then
removed, `objR` registered, stepped and memorized. -/
def w3Result : EngineState :=
  { emptyEngineState with
    activePool := [{ id := 2
                     components := [Comp.transform2D
                       { prevX := 1, prevY := 2, X := 1, Y := 2, memCount := 1 }]
                     onStep := fun p => p
                     sprite := { Z := 0, frame := 1 }
                     isActive := true }]
    stepLog := [1, 2] }

/-- An object whose register request targets the inactive pool. -/
def objInactive : GameObject2D :=
  { id := 7
    components := []
    onStep := fun p => p
    sprite := { Z := 0, frame := 0 }
    isActive := false }

/-- A tick whose only queued request registers an object with target-active
flag false: it is drained, but lands in the inactive pool. -/
def cex3 : EngineState :=
  { emptyEngineState with
    registerChannel := [{ payload := objInactive, isActive := false }] }

/-- Three systems with ascending priorities; the middle one disabled. -/
def sysA : GSystem := { name := "sys_Physics2D", priority := 1, enabled := true }

def sysB : GSystem := { name := "sys_Collision2D", priority := 2, enabled := false }

def sysC : GSystem := { name := "sys_Quadtree", priority := 3, enabled := true }

/-- An engine state whose system list is `[sysA, sysB, sysC]`. -/
def wSysState : EngineState :=
  { emptyEngineState with systemPriorityList := [sysA, sysB, sysC] }

/-- A render-only object with a given id and depth key. -/
def renderObj (i : Nat) (z : Int) : GameObject2D :=
  { id := i
    components := []
    onStep := fun p => p
    sprite := { Z := z, frame := 0 }
    isActive := true }

/-- An active pool whose depth keys, in pool order, are `[3, 1, 2]`. -/
def wRenderState : EngineState :=
  { emptyEngineState with
    activePool := [renderObj 1 3, renderObj 2 1, renderObj 3 2] }

/-- A physics system whose working set holds two objects. -/
def physSys2 : Physics2DSystem := { obj2data := [1, 2] }

/-- An application in the `Running` state. -/
def appRunning : Application :=
  { status := .running
    parallelism := 1
    running := true
    executor := emptyExecutor
    sigKill := { closed := false, queued := 0 } }

/-- An application in the `Initialized` state, as `NewApplication` builds. -/
def appInit : Application :=
  { status := .inited
    parallelism := 1
    running := false
    executor := emptyExecutor
    sigKill := { closed := false, queued := 0 } }

/-- The event trace of a successful `Start` (src/core/coreloop.go lines
102-116, in program order). -/
def startEvents : List StartEvent :=
  [.initOpenGL, .initFuncCall, .executorRun, .spawnWorkerLoop,
   .setRunning, .executorRun, .renderLoop]

/-! ### Component-level lemmas -/

theorem Comp.getName_mapTransform (f : Transform2D → Transform2D) (c : Comp) :
    (match c with
      | .transform2D tf => Comp.transform2D (f tf)
      | c => c).GetName = c.GetName := by
  cases c <;> rfl

theorem transform2D?_mapTransform (o : GameObject2D)
    (f : Transform2D → Transform2D) :
    (o.mapTransform f).transform2D? = (o.transform2D?).map f := by
  unfold GameObject2D.transform2D? GameObject2D.mapTransform getComponent
  rw [List.find?_map]
  have hpred : ((fun c : Comp => c.GetName == NameTransform2D) ∘
      (fun c : Comp => match c with
        | .transform2D tf => Comp.transform2D (f tf)
        | c => c)) = fun c : Comp => c.GetName == NameTransform2D := by
    funext c
    simp [Function.comp, Comp.getName_mapTransform]
  rw [hpred]
  cases hfind : List.find? (fun c : Comp => c.GetName == NameTransform2D)
      o.components with
  | none => rfl
  | some c => cases c <;> rfl

theorem stepObject_id (o : GameObject2D) : (stepObject o).id = o.id := rfl

theorem stepObject_transform2D? (o : GameObject2D) :
    (stepObject o).transform2D? = (o.transform2D?).map (applyStep o.onStep) := by
  show (o.mapTransform (applyStep o.onStep)).transform2D? = _
  exact transform2D?_mapTransform o (applyStep o.onStep)

theorem applyStep_prevX (f : Int × Int → Int × Int) (tf : Transform2D) :
    (applyStep f tf).prevX = tf.prevX := rfl

theorem applyStep_memCount (f : Int × Int → Int × Int) (tf : Transform2D) :
    (applyStep f tf).memCount = tf.memCount := rfl

theorem MemXY_prev_eq_cur (tf : Transform2D) :
    tf.MemXY.prevX = tf.MemXY.X ∧ tf.MemXY.prevY = tf.MemXY.Y := ⟨rfl, rfl⟩

theorem MemXY_memCount (tf : Transform2D) :
    tf.MemXY.memCount = tf.memCount + 1 := rfl

theorem memorizeObject_eq_some (o o2 : GameObject2D)
    (h : memorizeObject o = some o2) :
    o2 = o.mapTransform Transform2D.MemXY ∧ (o.transform2D?).isSome = true := by
  unfold memorizeObject at h
  cases htf : o.transform2D? with
  | none => rw [htf] at h; exact absurd h (by simp)
  | some tf =>
    rw [htf] at h
    exact ⟨(Option.some_inj.mp h).symm, by simp⟩

theorem memorizeObject_id (o o2 : GameObject2D)
    (h : memorizeObject o = some o2) : o2.id = o.id := by
  rw [(memorizeObject_eq_some o o2 h).1]; rfl

theorem memorizeObject_transform2D? (o o2 : GameObject2D) (tf : Transform2D)
    (h : memorizeObject o = some o2) (htf : o.transform2D? = some tf) :
    o2.transform2D? = some tf.MemXY := by
  rw [(memorizeObject_eq_some o o2 h).1, transform2D?_mapTransform, htf]
  rfl

theorem memorizeObject_isSome (o : GameObject2D) :
    (memorizeObject o).isSome = (o.transform2D?).isSome := by
  unfold memorizeObject
  cases o.transform2D? <;> rfl

/-! ### Memorize-pool lemmas -/

theorem memorizePool_isSome (l : List GameObject2D) :
    (memorizePool l).isSome = true ↔
      ∀ o ∈ l, (o.transform2D?).isSome = true := by
  induction l with
  | nil => simp [memorizePool]
  | cons o rest ih =>
    unfold memorizePool
    cases hmo : memorizeObject o with
    | none =>
      have : (o.transform2D?).isSome = false := by
        rw [← memorizeObject_isSome, hmo]; rfl
      simp [this]
    | some o2 =>
      have : (o.transform2D?).isSome = true := by
        rw [← memorizeObject_isSome, hmo]; rfl
      cases hrest : memorizePool rest with
      | none => simp [hrest] at ih ⊢; simpa [this] using ih
      | some l2 => simp [hrest] at ih ⊢; simpa [this] using ih

theorem memorizePool_mem (l l2 : List GameObject2D)
    (h : memorizePool l = some l2) :
    ∀ o2 ∈ l2, ∃ o ∈ l, memorizeObject o = some o2 := by
  induction l generalizing l2 with
  | nil =>
    simp [memorizePool] at h
    subst h; simp
  | cons o rest ih =>
    unfold memorizePool at h
    cases hmo : memorizeObject o with
    | none => rw [hmo] at h; exact absurd h (by simp)
    | some ohd =>
      rw [hmo] at h
      cases hrest : memorizePool rest with
      | none => rw [hrest] at h; exact absurd h (by simp)
      | some ltl =>
        rw [hrest] at h
        simp only [Option.map_some'] at h
        cases h
        intro o2 ho2
        rcases List.mem_cons.mp ho2 with h2 | h2
        · exact ⟨o, List.mem_cons_self o rest, h2 ▸ hmo⟩
        · obtain ⟨o0, ho0, hmo0⟩ := ih ltl hrest o2 h2
          exact ⟨o0, List.mem_cons_of_mem o ho0, hmo0⟩

theorem memorizePool_length (l l2 : List GameObject2D)
    (h : memorizePool l = some l2) : l2.length = l.length := by
  induction l generalizing l2 with
  | nil => simp [memorizePool] at h; subst h; rfl
  | cons o rest ih =>
    unfold memorizePool at h
    cases hmo : memorizeObject o with
    | none => rw [hmo] at h; exact absurd h (by simp)
    | some ohd =>
      rw [hmo] at h
      cases hrest : memorizePool rest with
      | none => rw [hrest] at h; exact absurd h (by simp)
      | some ltl =>
        rw [hrest] at h
        simp only [Option.map_some'] at h
        cases h
        simp [ih ltl hrest]

/-! ### Pool membership and id lemmas -/

theorem idMem_false_iff (pool : List GameObject2D) (i : Nat) :
    idMem pool i = false ↔ i ∉ poolIds pool := by
  simp [idMem, poolIds, List.any_eq_true, List.mem_map]

theorem mem_idMem (pool : List GameObject2D) (o : GameObject2D)
    (h : o ∈ pool) : idMem pool o.id = true := by
  simp [idMem, List.any_eq_true]
  exact ⟨o, h, rfl⟩

theorem nodupIds_unique (pool : List GameObject2D) (hnd : NodupIds pool)
    (o o2 : GameObject2D) (ho : o ∈ pool) (ho2 : o2 ∈ pool)
    (hid : o.id = o2.id) : o = o2 :=
  List.inj_on_of_nodup_map hnd ho ho2 hid

/-! ### Register-drain lemmas -/

theorem phaseDrainRegister_eq (s : EngineState) :
    phaseDrainRegister s =
      { drainRegFold s s.registerChannel with registerChannel := [] } := rfl

theorem addObjDefault_activePool (s : EngineState) (obj : GameObject2D)
    (a : Bool) :
    (addObjDefault s obj a).activePool =
      if a && !(idMem s.activePool obj.id) then s.activePool ++ [obj]
      else s.activePool := by
  cases a with
  | false => simp [addObjDefault]
  | true =>
    by_cases h : idMem s.activePool obj.id = true
    · simp [addObjDefault, poolInsert, h]
    · simp at h
      simp [addObjDefault, poolInsert, h]

theorem addObjDefault_fields (s : EngineState) (obj : GameObject2D)
    (a : Bool) :
    (addObjDefault s obj a).registerChannel = s.registerChannel ∧
    (addObjDefault s obj a).unregisterChannel = s.unregisterChannel ∧
    (addObjDefault s obj a).systemPriorityList = s.systemPriorityList ∧
    (addObjDefault s obj a).executedLog = s.executedLog ∧
    (addObjDefault s obj a).stepLog = s.stepLog ∧
    (addObjDefault s obj a).inputPressed = s.inputPressed ∧
    (addObjDefault s obj a).inputHeld = s.inputHeld ∧
    (addObjDefault s obj a).inputReleased = s.inputReleased := by
  cases a <;> simp [addObjDefault]

theorem drainRegFold_length (reqs : List resourceAccessRequest) :
    ∀ s : EngineState,
      (drainRegFold s reqs).activePool.length =
        s.activePool.length + regActiveAdds s.activePool reqs := by
  induction reqs with
  | nil => intro s; simp [drainRegFold, regActiveAdds]
  | cons req rest ih =>
    intro s
    have hstep : drainRegFold s (req :: rest) =
        drainRegFold (addObjDefault s req.payload req.isActive) rest := rfl
    have hcons : regActiveAdds s.activePool (req :: rest) =
        if (req.isActive && !(idMem s.activePool req.payload.id)) = true then
          1 + regActiveAdds (s.activePool ++ [req.payload]) rest
        else regActiveAdds s.activePool rest := rfl
    rw [hstep, ih, addObjDefault_activePool, hcons]
    by_cases hc : (req.isActive && !(idMem s.activePool req.payload.id)) = true
    · rw [if_pos hc, if_pos hc]
      simp only [List.length_append, List.length_singleton]
      omega
    · rw [if_neg hc, if_neg hc]

theorem drainRegFold_mem (reqs : List resourceAccessRequest) :
    ∀ (s : EngineState) (o : GameObject2D),
      o ∈ (drainRegFold s reqs).activePool →
        o ∈ s.activePool ∨ idMem s.activePool o.id = false := by
  induction reqs with
  | nil => intro s o h; exact Or.inl h
  | cons req rest ih =>
    intro s o h
    have hstep : drainRegFold s (req :: rest) =
        drainRegFold (addObjDefault s req.payload req.isActive) rest := rfl
    rw [hstep] at h
    rcases ih _ o h with h1 | h1
    · rw [addObjDefault_activePool] at h1
      by_cases hc : (req.isActive && !(idMem s.activePool req.payload.id)) = true
      · rw [if_pos hc] at h1
        rcases List.mem_append.mp h1 with h2 | h2
        · exact Or.inl h2
        · have : o = req.payload := by simpa using h2
          subst this
          right
          have := (Bool.and_eq_true _ _).mp hc
          simpa using this.2
      · rw [if_neg hc] at h1
        exact Or.inl h1
    · rw [addObjDefault_activePool] at h1
      right
      by_cases hc : (req.isActive && !(idMem s.activePool req.payload.id)) = true
      · rw [if_pos hc] at h1
        rw [idMem_false_iff] at h1 ⊢
        intro hmem
        apply h1
        simp only [poolIds, List.map_append, List.map_singleton]
        exact List.mem_append_left _ (by simpa [poolIds] using hmem)
      · rwa [if_neg hc] at h1

theorem drainRegFold_nodup (reqs : List resourceAccessRequest) :
    ∀ s : EngineState, NodupIds s.activePool →
      NodupIds (drainRegFold s reqs).activePool := by
  induction reqs with
  | nil => intro s h; exact h
  | cons req rest ih =>
    intro s hnd
    have hstep : drainRegFold s (req :: rest) =
        drainRegFold (addObjDefault s req.payload req.isActive) rest := rfl
    rw [hstep]
    apply ih
    rw [NodupIds, poolIds, addObjDefault_activePool]
    by_cases hc : (req.isActive && !(idMem s.activePool req.payload.id)) = true
    · rw [if_pos hc]
      have hfresh := (Bool.and_eq_true _ _).mp hc |>.2
      have hnm : idMem s.activePool req.payload.id = false := by simpa using hfresh
      rw [idMem_false_iff] at hnm
      simp only [List.map_append, List.map_singleton]
      rw [List.nodup_append]
      refine ⟨hnd, List.nodup_singleton _, ?_⟩
      intro i hi hj
      simp only [List.mem_singleton] at hj
      subst hj
      exact hnm (by simpa [poolIds] using hi)
    · rw [if_neg hc]
      exact hnd

theorem drainRegFold_fields (reqs : List resourceAccessRequest) :
    ∀ s : EngineState,
      (drainRegFold s reqs).registerChannel = s.registerChannel ∧
      (drainRegFold s reqs).unregisterChannel = s.unregisterChannel ∧
      (drainRegFold s reqs).systemPriorityList = s.systemPriorityList ∧
      (drainRegFold s reqs).executedLog = s.executedLog ∧
      (drainRegFold s reqs).stepLog = s.stepLog ∧
      (drainRegFold s reqs).inputPressed = s.inputPressed ∧
      (drainRegFold s reqs).inputHeld = s.inputHeld ∧
      (drainRegFold s reqs).inputReleased = s.inputReleased := by
  induction reqs with
  | nil => intro s; exact ⟨rfl, rfl, rfl, rfl, rfl, rfl, rfl, rfl⟩
  | cons req rest ih =>
    intro s
    have hstep : drainRegFold s (req :: rest) =
        drainRegFold (addObjDefault s req.payload req.isActive) rest := rfl
    rw [hstep]
    have h1 := ih (addObjDefault s req.payload req.isActive)
    have h2 := addObjDefault_fields s req.payload req.isActive
    exact ⟨h1.1.trans h2.1, h1.2.1.trans h2.2.1, h1.2.2.1.trans h2.2.2.1,
      h1.2.2.2.1.trans h2.2.2.2.1, h1.2.2.2.2.1.trans h2.2.2.2.2.1,
      h1.2.2.2.2.2.1.trans h2.2.2.2.2.2.1,
      h1.2.2.2.2.2.2.1.trans h2.2.2.2.2.2.2.1,
      h1.2.2.2.2.2.2.2.trans h2.2.2.2.2.2.2.2⟩

/-! ### Unregister-drain lemmas -/

theorem phaseDrainUnregister_eq (s : EngineState) :
    phaseDrainUnregister s =
      { drainUnregFold s s.unregisterChannel with unregisterChannel := [] } :=
  rfl

theorem removeObjDefault_activePool (s : EngineState) (obj : GameObject2D)
    (w : Bool) :
    (removeObjDefault s obj w).activePool =
      if w then poolRemove s.activePool obj.id else s.activePool := by
  cases w <;> simp [removeObjDefault]

theorem removeObjDefault_fields (s : EngineState) (obj : GameObject2D)
    (w : Bool) :
    (removeObjDefault s obj w).registerChannel = s.registerChannel ∧
    (removeObjDefault s obj w).unregisterChannel = s.unregisterChannel ∧
    (removeObjDefault s obj w).systemPriorityList = s.systemPriorityList ∧
    (removeObjDefault s obj w).executedLog = s.executedLog ∧
    (removeObjDefault s obj w).stepLog = s.stepLog ∧
    (removeObjDefault s obj w).inputPressed = s.inputPressed ∧
    (removeObjDefault s obj w).inputHeld = s.inputHeld ∧
    (removeObjDefault s obj w).inputReleased = s.inputReleased := by
  cases w <;> simp [removeObjDefault]

theorem poolRemove_length (pool : List GameObject2D) (i : Nat) :
    (poolRemove pool i).length +
      pool.countP (fun o => o.id == i) = pool.length := by
  induction pool with
  | nil => rfl
  | cons o rest ih =>
    simp only [poolRemove] at ih ⊢
    rw [List.filter_cons, List.countP_cons]
    by_cases h : (o.id == i) = true
    · rw [if_neg (by simp [bne, h]), if_pos h, List.length_cons]
      omega
    · have hb : (o.id == i) = false := by simpa using h
      rw [if_pos (by simp [bne, hb]), if_neg (by simp [hb]),
        List.length_cons, List.length_cons]
      omega

theorem drainUnregFold_length (reqs : List resourceAccessRequest) :
    ∀ s : EngineState,
      (drainUnregFold s reqs).activePool.length +
        unregActiveRemovals s.activePool reqs = s.activePool.length := by
  induction reqs with
  | nil => intro s; simp [drainUnregFold, unregActiveRemovals]
  | cons req rest ih =>
    intro s
    have hstep : drainUnregFold s (req :: rest) =
        drainUnregFold (removeObjDefault s req.payload req.payload.isActive)
          rest := rfl
    have hcons : unregActiveRemovals s.activePool (req :: rest) =
        if req.payload.isActive = true then
          s.activePool.countP (fun o => o.id == req.payload.id) +
            unregActiveRemovals (poolRemove s.activePool req.payload.id) rest
        else unregActiveRemovals s.activePool rest := rfl
    rw [hstep, hcons]
    have hrec := ih (removeObjDefault s req.payload req.payload.isActive)
    rw [removeObjDefault_activePool] at hrec
    by_cases hw : req.payload.isActive = true
    · rw [if_pos hw]
      rw [if_pos hw] at hrec
      have hlen := poolRemove_length s.activePool req.payload.id
      omega
    · rw [if_neg hw]
      rw [if_neg hw] at hrec
      exact hrec

theorem drainUnregFold_mem (reqs : List resourceAccessRequest) :
    ∀ (s : EngineState) (o : GameObject2D),
      o ∈ (drainUnregFold s reqs).activePool → o ∈ s.activePool := by
  induction reqs with
  | nil => intro s o h; exact h
  | cons req rest ih =>
    intro s o h
    have hstep : drainUnregFold s (req :: rest) =
        drainUnregFold (removeObjDefault s req.payload req.payload.isActive)
          rest := rfl
    rw [hstep] at h
    have h1 := ih _ o h
    rw [removeObjDefault_activePool] at h1
    by_cases hw : req.payload.isActive = true
    · rw [if_pos hw] at h1
      exact List.mem_of_mem_filter h1
    · rwa [if_neg hw] at h1

theorem drainUnregFold_fields (reqs : List resourceAccessRequest) :
    ∀ s : EngineState,
      (drainUnregFold s reqs).registerChannel = s.registerChannel ∧
      (drainUnregFold s reqs).unregisterChannel = s.unregisterChannel ∧
      (drainUnregFold s reqs).systemPriorityList = s.systemPriorityList ∧
      (drainUnregFold s reqs).executedLog = s.executedLog ∧
      (drainUnregFold s reqs).stepLog = s.stepLog ∧
      (drainUnregFold s reqs).inputPressed = s.inputPressed ∧
      (drainUnregFold s reqs).inputHeld = s.inputHeld ∧
      (drainUnregFold s reqs).inputReleased = s.inputReleased := by
  induction reqs with
  | nil => intro s; exact ⟨rfl, rfl, rfl, rfl, rfl, rfl, rfl, rfl⟩
  | cons req rest ih =>
    intro s
    have hstep : drainUnregFold s (req :: rest) =
        drainUnregFold (removeObjDefault s req.payload req.payload.isActive)
          rest := rfl
    rw [hstep]
    have h1 := ih (removeObjDefault s req.payload req.payload.isActive)
    have h2 := removeObjDefault_fields s req.payload req.payload.isActive
    exact ⟨h1.1.trans h2.1, h1.2.1.trans h2.2.1, h1.2.2.1.trans h2.2.2.1,
      h1.2.2.2.1.trans h2.2.2.2.1, h1.2.2.2.2.1.trans h2.2.2.2.2.1,
      h1.2.2.2.2.2.1.trans h2.2.2.2.2.2.1,
      h1.2.2.2.2.2.2.1.trans h2.2.2.2.2.2.2.1,
      h1.2.2.2.2.2.2.2.trans h2.2.2.2.2.2.2.2⟩

/-! ### System-execution fold lemma -/

theorem execFold (l : List GSystem) :
    ∀ s : EngineState,
      l.foldl
        (fun acc sys =>
          if sys.enabled then
            { acc with executedLog := acc.executedLog ++ [sys] }
          else acc) s =
      { s with executedLog :=
          s.executedLog ++ l.filter (fun sys => sys.enabled) } := by
  induction l with
  | nil => intro s; simp
  | cons sys rest ih =>
    intro s
    by_cases he : sys.enabled = true
    · simp only [List.foldl_cons, if_pos he, ih, List.filter_cons, he,
        if_true, List.append_assoc, List.singleton_append]
    · have he2 : sys.enabled = false := by simpa using he
      simp only [List.foldl_cons, if_neg he, ih, List.filter_cons, he2,
        Bool.false_eq_true, if_false]

theorem phaseExecuteSystems_eq (s : EngineState) :
    phaseExecuteSystems s =
      { s with executedLog :=
          s.executedLog ++
            s.systemPriorityList.filter (fun sys => sys.enabled) } :=
  execFold s.systemPriorityList s

/-- The six phases of `doPhysicalUpdate`, as named functions, compose to the
monolithic translation; shared by the claim proofs. -/
theorem doPhysicalUpdate_eq_phases (s : EngineState) :
    doPhysicalUpdate s =
      phaseMemorize (phaseDrainUnregister (FlushInputBuffer (phaseUserSteps
        (phaseExecuteSystems (phaseDrainRegister s))))) := rfl

/-! ### Field-projection lemmas for the phases -/

theorem phaseDrainRegister_activePool (s : EngineState) :
    (phaseDrainRegister s).activePool =
      (drainRegFold s s.registerChannel).activePool := rfl

theorem phaseDrainRegister_stepLog (s : EngineState) :
    (phaseDrainRegister s).stepLog = s.stepLog :=
  (drainRegFold_fields s.registerChannel s).2.2.2.2.1

theorem phaseDrainRegister_unregisterChannel (s : EngineState) :
    (phaseDrainRegister s).unregisterChannel = s.unregisterChannel :=
  (drainRegFold_fields s.registerChannel s).2.1

theorem phaseExecuteSystems_activePool (s : EngineState) :
    (phaseExecuteSystems s).activePool = s.activePool := by
  rw [phaseExecuteSystems_eq]

theorem phaseExecuteSystems_stepLog (s : EngineState) :
    (phaseExecuteSystems s).stepLog = s.stepLog := by
  rw [phaseExecuteSystems_eq]

theorem phaseExecuteSystems_unregisterChannel (s : EngineState) :
    (phaseExecuteSystems s).unregisterChannel = s.unregisterChannel := by
  rw [phaseExecuteSystems_eq]

theorem phaseUserSteps_activePool (s : EngineState) :
    (phaseUserSteps s).activePool = s.activePool.map stepObject := rfl

theorem phaseUserSteps_stepLog (s : EngineState) :
    (phaseUserSteps s).stepLog = s.stepLog ++ poolIds s.activePool := rfl

theorem phaseUserSteps_unregisterChannel (s : EngineState) :
    (phaseUserSteps s).unregisterChannel = s.unregisterChannel := rfl

theorem FlushInputBuffer_activePool (s : EngineState) :
    (FlushInputBuffer s).activePool = s.activePool := rfl

theorem FlushInputBuffer_stepLog (s : EngineState) :
    (FlushInputBuffer s).stepLog = s.stepLog := rfl

theorem FlushInputBuffer_unregisterChannel (s : EngineState) :
    (FlushInputBuffer s).unregisterChannel = s.unregisterChannel := rfl

theorem phaseDrainUnregister_activePool (s : EngineState) :
    (phaseDrainUnregister s).activePool =
      (drainUnregFold s s.unregisterChannel).activePool := rfl

theorem phaseDrainUnregister_stepLog (s : EngineState) :
    (phaseDrainUnregister s).stepLog = s.stepLog :=
  (drainUnregFold_fields s.unregisterChannel s).2.2.2.2.1

theorem phaseMemorize_inv (s s2 : EngineState)
    (h : phaseMemorize s = some s2) :
    ∃ p6, memorizePool s.activePool = some p6 ∧
      s2 = { s with activePool := p6 } := by
  unfold phaseMemorize at h
  cases hm : memorizePool s.activePool with
  | none => rw [hm] at h; exact absurd h (by simp)
  | some p6 =>
    rw [hm] at h
    simp only [Option.map_some'] at h
    exact ⟨p6, rfl, (Option.some_inj.mp h).symm⟩

/-! ### Claim theorems -/

/-- C2: on every physical tick, `doPhysicalUpdate` executes exactly six
phases in this exact order — (1) drain all pending register requests into
the pool, (2) invoke `Execute` on each enabled system, (3) run every active
object's step callback then advance its sprite frame, (4) flush the input
edge-buffer, (5) drain all pending unregister requests, (6) memorize every
active object's current position into its previous position — i.e. it is
the composition, in that order, of the six named phase functions. -/
theorem claim_C2_tick_phase_order (s : EngineState) :
    doPhysicalUpdate s =
      phaseMemorize (phaseDrainUnregister (FlushInputBuffer (phaseUserSteps
        (phaseExecuteSystems (phaseDrainRegister s))))) :=
  doPhysicalUpdate_eq_phases s

/-- C4: on a tick, the systems executed are exactly the enabled entries of
the priority list in list order; with pairwise-distinct ascending priorities
that executed sequence is strictly ascending in priority; a system whose
enabled flag is false is never in the executed sequence (so disabling a
system between ticks removes it from the next tick's execution, and the
phase is total — no error is possible). -/
theorem claim_C4_system_priority_order (s : EngineState)
    (hsorted : s.systemPriorityList.Pairwise
      (fun a b => a.priority < b.priority)) :
    (phaseExecuteSystems s).executedLog =
      s.executedLog ++
        s.systemPriorityList.filter (fun sys => sys.enabled) ∧
    (s.systemPriorityList.filter (fun sys => sys.enabled)).Pairwise
      (fun a b => a.priority < b.priority) ∧
    ∀ sys ∈ s.systemPriorityList, sys.enabled = false →
      sys ∉ s.systemPriorityList.filter (fun sys2 => sys2.enabled) := by
  refine ⟨by rw [phaseExecuteSystems_eq], ?_, ?_⟩
  · exact hsorted.sublist (List.filter_sublist _)
  · intro sys _ hdis hcontra
    have := List.of_mem_filter hcontra
    rw [hdis] at this
    exact absurd this (by simp)

/-- Witness for C4 at the concrete system list `[sysA, sysB, sysC]` with
priorities `[1, 2, 3]` and `sysB` disabled. -/
theorem claim_C4_system_priority_order_witness :
    wSysState.systemPriorityList.Pairwise
      (fun a b => a.priority < b.priority) ∧
    ((phaseExecuteSystems wSysState).executedLog =
      wSysState.executedLog ++
        wSysState.systemPriorityList.filter (fun sys => sys.enabled) ∧
    (wSysState.systemPriorityList.filter (fun sys => sys.enabled)).Pairwise
      (fun a b => a.priority < b.priority) ∧
    ∀ sys ∈ wSysState.systemPriorityList, sys.enabled = false →
      sys ∉ wSysState.systemPriorityList.filter (fun sys2 => sys2.enabled)) :=
  ⟨by decide, claim_C4_system_priority_order wSysState (by decide)⟩

/-- C5: on every render tick the draw list is a permutation of the active
pool snapshot sorted by depth key in descending order, and at the concrete
pool with depth keys `[3, 1, 2]` the render callbacks are invoked in depth
order `[3, 2, 1]`. -/
theorem claim_C5_render_depth_order :
    (∀ s : EngineState,
      (doRender s).Sorted zDescBefore ∧ (doRender s).Perm s.activePool) ∧
    (doRender wRenderState).map (fun o => o.sprite.Z) = [3, 2, 1] := by
  refine ⟨fun s => ⟨?_, ?_⟩, ?_⟩
  · exact List.sorted_insertionSort zDescBefore s.activePool
  · exact List.perm_insertionSort zDescBefore s.activePool
  · rfl

/-- C6: at the failing input `obj2data = [1, 2]`, `Physics2DSystem.Execute`
does submit exactly one task per working-set entry without completing any,
but because every submitted closure captures the single `for`-range variable
`item`, tasks executed after the loop has advanced integrate the final
object: both queued tasks target object 2, not the distinct objects they
were submitted on behalf of. -/
theorem claim_C6_loop_capture_bug :
    (physSys2.ExecuteSharedVarPostLoop emptyExecutor).tasks =
      [{ target := 2 }, { target := 2 }] ∧
    (physSys2.ExecuteSubmitsEach emptyExecutor).tasks =
      [{ target := 1 }, { target := 2 }] ∧
    (physSys2.ExecuteSharedVarPostLoop emptyExecutor).tasks.length =
      physSys2.obj2data.length ∧
    (physSys2.ExecuteSharedVarPostLoop emptyExecutor).completed =
      emptyExecutor.completed ∧
    (physSys2.ExecuteSharedVarPostLoop emptyExecutor).tasks ≠
      (physSys2.ExecuteSubmitsEach emptyExecutor).tasks := by
  refine ⟨rfl, rfl, rfl, rfl, ?_⟩
  decide

/-- C7: with the process-wide guard clear, `NewApplication` succeeds and
sets the guard; any construction attempted while the guard is held fails
with the fatal duplicate-controller error — deterministically an error, never
a silent no-op. -/
theorem claim_C7_singleton_guard (cfg cfg2 : AppConfig) :
    (∃ app, NewApplication false cfg = .ok (true, app)) ∧
    NewApplication true cfg2 =
      .error "cannot have two masterGameLoopController in a standalone process" :=
  ⟨⟨_, rfl⟩, rfl⟩

/-- C8: calling `Start` on an application already in the `Running` state is
a fatal error, and calling `Kill` after `workLoopExit` has closed the
shutdown channel is a fatal error (send on closed channel); neither returns
successfully. -/
theorem claim_C8_lifecycle_misuse :
    (∀ app : Application, app.status = gameLoopStats.running →
      Start app = .error "cannot run a controller twice") ∧
    (∀ app : Application,
      Kill (workLoopExit app) = .error "send on closed channel") := by
  constructor
  · intro app h
    unfold Start
    rw [if_pos h]
  · intro app
    unfold Kill workLoopExit
    simp

/-- Witness for C8 at a concrete running application. -/
theorem claim_C8_lifecycle_misuse_witness :
    appRunning.status = gameLoopStats.running ∧
    Start appRunning = .error "cannot run a controller twice" ∧
    Kill (workLoopExit appRunning) = .error "send on closed channel" :=
  ⟨rfl, claim_C8_lifecycle_misuse.1 appRunning rfl,
    claim_C8_lifecycle_misuse.2 appRunning⟩

/-- C9: the physical tick succeeds exactly when every object in the active
pool at the memorize phase (after registers were drained, steps ran and
unregisters were drained) owns a `Transform2D`; an active object lacking one
makes `doPhysicalUpdate` fail fatally at the unchecked lookup and type
assertion. -/
theorem claim_C9_memorize_requires_transform (s : EngineState) :
    (doPhysicalUpdate s).isSome = true ↔
      ∀ o ∈ (phaseDrainUnregister (FlushInputBuffer (phaseUserSteps
        (phaseExecuteSystems (phaseDrainRegister s))))).activePool,
        (o.transform2D?).isSome = true := by
  rw [doPhysicalUpdate_eq_phases]
  unfold phaseMemorize
  rw [Option.isSome_map']
  exact memorizePool_isSome _

/-- C10: a single successful `Start` performs exactly the event sequence of
the source — `executor.Run()` once before spawning the physical-update
goroutine and once again after marking the application `Running` — so the
executor start-up routine runs twice, not once, per application start. -/
theorem claim_C10_start_runs_executor_twice (app : Application)
    (h : app.status ≠ gameLoopStats.running) :
    ∃ app2, Start app = .ok (app2, startEvents) ∧
      app2.executor.runCount = app.executor.runCount + 2 ∧
      startEvents.count StartEvent.executorRun = 2 := by
  refine ⟨{ app with
      running := true
      status := .running
      executor := app.executor.Run.Run }, ?_, rfl, by decide⟩
  unfold Start
  rw [if_neg h]
  rfl

/-- Witness for C10 at a freshly initialized application. -/
theorem claim_C10_start_runs_executor_twice_witness :
    appInit.status ≠ gameLoopStats.running ∧
    ∃ app2, Start appInit = .ok (app2, startEvents) ∧
      app2.executor.runCount = appInit.executor.runCount + 2 ∧
      startEvents.count StartEvent.executorRun = 2 :=
  ⟨by decide, claim_C10_start_runs_executor_twice appInit (by decide)⟩

/-- C1: after a successful physical tick, every object in the active pool
has its previous position equal to its current position as observed at the
end of the tick; and every object that was active at the start of the tick
and is still active at its end carries exactly the transform obtained by
applying its step callback to its start-of-tick transform and then `MemXY` —
in particular its ghost write counter grew by exactly one (the memorize
phase, which runs after all systems and user steps, is the unique writer of
the previous position), and the value memorized is the end-of-tick current
position, not a later or intermediate one. -/
theorem claim_C1_prev_equals_end_of_tick (s s2 : EngineState)
    (hnd : NodupIds s.activePool) (h : doPhysicalUpdate s = some s2) :
    ∀ o2 ∈ s2.activePool,
      (∃ tf, o2.transform2D? = some tf ∧ tf.prevX = tf.X ∧ tf.prevY = tf.Y) ∧
      (∀ o ∈ s.activePool, o.id = o2.id →
        ∀ tf0, o.transform2D? = some tf0 →
          o2.transform2D? = some ((applyStep o.onStep tf0).MemXY)) := by
  rw [doPhysicalUpdate_eq_phases] at h
  obtain ⟨p6, hp6, hs2⟩ := phaseMemorize_inv _ _ h
  have hs2a : s2.activePool = p6 := by rw [hs2]
  intro o2 ho2
  rw [hs2a] at ho2
  obtain ⟨o5, ho5, hmem5⟩ := memorizePool_mem _ _ hp6 o2 ho2
  have hsome := (memorizeObject_eq_some o5 o2 hmem5).2
  obtain ⟨tf5, htf5⟩ := Option.isSome_iff_exists.mp hsome
  have htf2 : o2.transform2D? = some tf5.MemXY :=
    memorizeObject_transform2D? o5 o2 tf5 hmem5 htf5
  constructor
  · exact ⟨tf5.MemXY, htf2, rfl, rfl⟩
  · intro o ho hid tf0 htf0
    have hid2 : o2.id = o5.id := memorizeObject_id o5 o2 hmem5
    have h5 : o5 ∈ (drainUnregFold
        (FlushInputBuffer (phaseUserSteps (phaseExecuteSystems
          (phaseDrainRegister s))))
        (FlushInputBuffer (phaseUserSteps (phaseExecuteSystems
          (phaseDrainRegister s)))).unregisterChannel).activePool := by
      rw [← phaseDrainUnregister_activePool]
      exact ho5
    have h4 := drainUnregFold_mem _ _ o5 h5
    rw [FlushInputBuffer_activePool, phaseUserSteps_activePool] at h4
    obtain ⟨o1, ho1, hstep⟩ := List.mem_map.mp h4
    rw [phaseExecuteSystems_activePool, phaseDrainRegister_activePool] at ho1
    have hids : o.id = o1.id := by
      rw [hid, hid2, ← hstep]
      exact stepObject_id o1
    rcases drainRegFold_mem s.registerChannel s o1 ho1 with hmem | hfresh
    · have hoo1 : o = o1 := nodupIds_unique s.activePool hnd o o1 ho hmem hids
      subst hoo1
      have htrans : o5.transform2D? = (o.transform2D?).map (applyStep o.onStep) := by
        rw [← hstep]
        exact stepObject_transform2D? o
      rw [htf0] at htrans
      simp only [Option.map_some'] at htrans
      have htfeq : tf5 = applyStep o.onStep tf0 := by
        rw [htrans] at htf5
        exact (Option.some_inj.mp htf5).symm
      rw [htf2, htfeq]
    · exfalso
      have hin := mem_idMem s.activePool o ho
      rw [hids] at hin
      exact Bool.noConfusion (hin.symm.trans hfresh)

/-- Witness for C1: a one-object tick at position `(5, 7)` memorizes
`(5, 7)` into the previous position with one write. -/
theorem claim_C1_prev_equals_end_of_tick_witness :
    NodupIds w1.activePool ∧ doPhysicalUpdate w1 = some w1Result ∧
    ∀ o2 ∈ w1Result.activePool,
      (∃ tf, o2.transform2D? = some tf ∧ tf.prevX = tf.X ∧ tf.prevY = tf.Y) ∧
      (∀ o ∈ w1.activePool, o.id = o2.id →
        ∀ tf0, o.transform2D? = some tf0 →
          o2.transform2D? = some ((applyStep o.onStep tf0).MemXY)) :=
  ⟨by unfold NodupIds; decide, rfl,
    claim_C1_prev_equals_end_of_tick w1 w1Result
      (by unfold NodupIds; decide) rfl⟩

/-- C3 (amended): the active-pool size after a successful tick equals the
size before plus the number of drained register requests that actually
insert a new object into the active pool (a request whose target-active flag
is false lands in the inactive pool, and a set-insert of an already-present
object changes nothing) minus the number of objects the drained unregister
requests actually remove from the active pool; moreover, the step-callback
phase visits exactly the ids of the post-register-drain active pool, each
exactly once (given distinct ids at tick start) and none missed. -/
theorem claim_C3_pool_size_accounting (s s2 : EngineState)
    (hnd : NodupIds s.activePool) (h : doPhysicalUpdate s = some s2) :
    s2.activePool.length +
      unregActiveRemovals
        ((phaseUserSteps (phaseExecuteSystems
          (phaseDrainRegister s))).activePool)
        s.unregisterChannel =
      s.activePool.length + regActiveAdds s.activePool s.registerChannel ∧
    s2.stepLog = s.stepLog ++ poolIds ((phaseDrainRegister s).activePool) ∧
    (poolIds ((phaseDrainRegister s).activePool)).Nodup := by
  rw [doPhysicalUpdate_eq_phases] at h
  obtain ⟨p6, hp6, hs2⟩ := phaseMemorize_inv _ _ h
  set p1s := phaseDrainRegister s with hp1
  set p2s := phaseExecuteSystems p1s with hp2
  set p3s := phaseUserSteps p2s with hp3
  set p4s := FlushInputBuffer p3s with hp4
  set p5s := phaseDrainUnregister p4s with hp5
  have hs2a : s2.activePool = p6 := by rw [hs2]
  have hs2log : s2.stepLog = p5s.stepLog := by rw [hs2]
  have hpool4 : p4s.activePool = p3s.activePool := by
    rw [hp4]
    exact FlushInputBuffer_activePool p3s
  have hch4 : p4s.unregisterChannel = s.unregisterChannel := by
    rw [hp4, FlushInputBuffer_unregisterChannel, hp3,
      phaseUserSteps_unregisterChannel, hp2,
      phaseExecuteSystems_unregisterChannel, hp1,
      phaseDrainRegister_unregisterChannel]
  refine ⟨?_, ?_, ?_⟩
  · have hlen6 : p6.length = p5s.activePool.length :=
      memorizePool_length _ _ hp6
    have hlen5 := drainUnregFold_length p4s.unregisterChannel p4s
    rw [hpool4, hch4] at hlen5
    have hp5act : p5s.activePool =
        (drainUnregFold p4s p4s.unregisterChannel).activePool := by
      rw [hp5, phaseDrainUnregister_activePool]
    rw [hch4] at hp5act
    have hlen3 : p3s.activePool.length = p2s.activePool.length := by
      rw [hp3, phaseUserSteps_activePool, List.length_map]
    have hlen2 : p2s.activePool = p1s.activePool := by
      rw [hp2, phaseExecuteSystems_activePool]
    have hlen1 : p1s.activePool.length =
        s.activePool.length + regActiveAdds s.activePool s.registerChannel := by
      rw [hp1, phaseDrainRegister_activePool]
      exact drainRegFold_length s.registerChannel s
    rw [hs2a, hlen6, hp5act]
    rw [hlen2] at hlen3
    omega
  · rw [hs2log, hp5, phaseDrainUnregister_stepLog, hp4,
      FlushInputBuffer_stepLog, hp3, phaseUserSteps_stepLog, hp2,
      phaseExecuteSystems_stepLog, phaseExecuteSystems_activePool, hp1,
      phaseDrainRegister_stepLog]
  · have := drainRegFold_nodup s.registerChannel s hnd
    rw [hp1, phaseDrainRegister_activePool]
    exact this

/-- Witness for C3 (amended): a tick that starts with one active object,
drains one register request that inserts a second object and one unregister
request that removes the first; sizes: `1 + 1 = 1 + 1`. -/
theorem claim_C3_pool_size_accounting_witness :
    NodupIds w3.activePool ∧ doPhysicalUpdate w3 = some w3Result ∧
    (w3Result.activePool.length +
      unregActiveRemovals
        ((phaseUserSteps (phaseExecuteSystems
          (phaseDrainRegister w3))).activePool)
        w3.unregisterChannel =
      w3.activePool.length + regActiveAdds w3.activePool w3.registerChannel ∧
    w3Result.stepLog = w3.stepLog ++ poolIds ((phaseDrainRegister w3).activePool) ∧
    (poolIds ((phaseDrainRegister w3).activePool)).Nodup) :=
  ⟨by unfold NodupIds; decide, rfl,
    claim_C3_pool_size_accounting w3 w3Result
      (by unfold NodupIds; decide) rfl⟩

/-- Counterexample to C3 as stated: a tick that drains exactly one register
request (whose target-active flag is false) and no unregister requests;
the claimed size `before + registers drained − unregisters drained` is `1`,
but the active pool after the tick has size `0` (the object went to the
inactive pool). -/
theorem claim_C3_pool_size_accounting_counterexample :
    (doPhysicalUpdate cex3).map (fun s2 => s2.activePool.length) = some 0 ∧
    cex3.activePool.length + cex3.registerChannel.length -
      cex3.unregisterChannel.length = 1 :=
  ⟨rfl, rfl⟩

end GalaxyEngine
